import Mathlib

/-!
Verification of the School aggregation/trend/ranking pipeline (`project.py`).

Modelling conventions:
* scores are exact rationals (`ℚ`), standing for the Python floats; all the
  arithmetic of the program (sums, means, the closed-form least-squares fit,
  clipping) is carried out exactly;
* Python dictionaries are insertion-ordered association lists: assigning to an
  existing key replaces the value in place, a new key is appended at the end;
* a Python exception (`ValueError`, `KeyError`) is `none` in an `Option` result.
-/

/-- The closed enumeration of subjects (`class Subject(Enum)`). -/
inductive Subject where
  | POLISH
  | ENGLISH
  | MATH
deriving DecidableEq, Repr

/-- Lookup in an insertion-ordered association list (Python `d[k]` read,
`none` standing for `KeyError`). -/
def dictLookup {α β : Type} [DecidableEq α] : List (α × β) → α → Option β
  | [], _ => none
  | (k', v) :: t, k => if k' = k then some v else dictLookup t k

/-- Python dict assignment `d[k] = v`: replace in place when the key exists,
append at the end otherwise. -/
def dictInsert {α β : Type} [DecidableEq α] : List (α × β) → α → β → List (α × β)
  | [], k, v => [(k, v)]
  | (k', v') :: t, k, v => if k' = k then (k, v) :: t else (k', v') :: dictInsert t k v

/-- Python in-place update of the value stored at a key that is already
present (`d[k]` mutated through the reference); a missing key is left
untouched (the program only reaches this through keys the constructor put in). -/
def dictUpdate {α β : Type} [DecidableEq α] (l : List (α × β)) (k : α) (f : β → β) :
    List (α × β) :=
  l.map (fun p => if p.1 = k then (p.1, f p.2) else p)

/-- A school: a name and, for every subject, the year-keyed map of scores
(`School.__init__` / `self.results`). -/
structure School where
  name : String
  results : List (Subject × List (Int × ℚ))
deriving Repr

/-- Source `School.__init__`: empty result structure for each of the three subjects. -/
def mkSchool (name : String) : School :=
  { name := name
    results := [(Subject.POLISH, []), (Subject.ENGLISH, []), (Subject.MATH, [])] }

/-- The year → score map recorded for a subject (`self.results[subject]`). -/
def School.subjectResults (s : School) (subject : Subject) : List (Int × ℚ) :=
  (dictLookup s.results subject).getD []

/-- Source `School.has_results`: at least one year has a recorded score. -/
def School.has_results (s : School) (subject : Subject) : Bool :=
  decide (0 < (s.subjectResults subject).length)

/-- Source `School.add_result`: `self.results[subject][year] = result`. -/
def School.add_result (s : School) (subject : Subject) (year : Int) (result : ℚ) :
    School :=
  { s with results := dictUpdate s.results subject (fun inner => dictInsert inner year result) }

/-- Source `School.calculate_average`: `sum(values) / len(values)` when any result is
recorded, `0.0` otherwise. -/
def School.calculate_average (s : School) (subject : Subject) : ℚ :=
  if s.has_results subject then
    ((s.subjectResults subject).map (fun p => p.2)).sum / ((s.subjectResults subject).length : ℚ)
  else 0

/-- Number of data points, as a rational. -/
def sN (pts : List (ℚ × ℚ)) : ℚ := (pts.length : ℚ)

/-- Sum of the x coordinates (years). -/
def sX (pts : List (ℚ × ℚ)) : ℚ := (pts.map (fun p => p.1)).sum

/-- Sum of the y coordinates (scores). -/
def sY (pts : List (ℚ × ℚ)) : ℚ := (pts.map (fun p => p.2)).sum

/-- Sum of the squared x coordinates. -/
def sXX (pts : List (ℚ × ℚ)) : ℚ := (pts.map (fun p => p.1 * p.1)).sum

/-- Sum of the products x·y. -/
def sXY (pts : List (ℚ × ℚ)) : ℚ := (pts.map (fun p => p.1 * p.2)).sum

/-- Sum of the squared y coordinates. -/
def sYY (pts : List (ℚ × ℚ)) : ℚ := (pts.map (fun p => p.2 * p.2)).sum

/-- Slope of the least-squares line computed by
`LinearRegression().fit(x, y)`, in exact arithmetic: the closed form
`(n·Σxy − Σx·Σy) / (n·Σx² − (Σx)²)`; when the denominator vanishes (all years
equal — in particular a single data point) the fit on centered data is the
minimum-norm solution of `lstsq`, whose coefficient is `0`. -/
def fitSlope (pts : List (ℚ × ℚ)) : ℚ :=
  let d := sN pts * sXX pts - sX pts * sX pts
  if d = 0 then 0 else (sN pts * sXY pts - sX pts * sY pts) / d

/-- Intercept of the fitted line: `ȳ − slope·x̄` (sklearn's `intercept_`). -/
def fitIntercept (pts : List (ℚ × ℚ)) : ℚ :=
  (sY pts - fitSlope pts * sX pts) / sN pts

/-- Source `model.predict([[year]])[0]`: value of the fitted line at `t`. -/
def trendPrediction (pts : List (ℚ × ℚ)) (t : ℚ) : ℚ :=
  fitSlope pts * t + fitIntercept pts

/-- Source `np.clip(v, lo, hi)`: lower bound applied first, then the upper bound. -/
def clip (lo hi v : ℚ) : ℚ := min hi (max lo v)

/-- Sum of squared residuals of the line `y = a·x + b` over the data set:
the objective that ordinary least squares minimises. -/
def sse (pts : List (ℚ × ℚ)) (a b : ℚ) : ℚ :=
  (pts.map (fun p => (p.2 - (a * p.1 + b)) ^ 2)).sum

/-- The (year, score) pairs recorded for a subject, years cast to `ℚ`
(`x = np.array(list(keys))`, `y = np.array(list(values))`). -/
def School.subjectPoints (s : School) (subject : Subject) : List (ℚ × ℚ) :=
  (s.subjectResults subject).map (fun p => ((p.1 : ℚ), p.2))

/-- Source `School.calculate_trend`: 0.0 with no data, otherwise the least-squares
prediction at `year`, clipped to [0, 100]. -/
def School.calculate_trend (s : School) (subject : Subject) (year : Int) : ℚ :=
  if s.has_results subject then
    clip 0 100 (trendPrediction (s.subjectPoints subject) (year : ℚ))
  else 0

/-- A report row (`School.convert_to_dict`'s dictionary): the school name and
the eight numeric metrics. -/
structure ReportRow where
  school : String
  polish_average : ℚ
  polish_trend : ℚ
  english_average : ℚ
  english_trend : ℚ
  math_average : ℚ
  math_trend : ℚ
  all_average : ℚ
  all_trend : ℚ
deriving Repr, DecidableEq

/-- Source `School.convert_to_dict`: per-subject averages and trends, plus the
combined metrics `(polish + english + math) / 3`. -/
def School.convert_to_dict (s : School) (trend_year : Int) : ReportRow :=
  let polish_average := s.calculate_average Subject.POLISH
  let polish_trend := s.calculate_trend Subject.POLISH trend_year
  let english_average := s.calculate_average Subject.ENGLISH
  let english_trend := s.calculate_trend Subject.ENGLISH trend_year
  let math_average := s.calculate_average Subject.MATH
  let math_trend := s.calculate_trend Subject.MATH trend_year
  { school := s.name
    polish_average := polish_average
    polish_trend := polish_trend
    english_average := english_average
    english_trend := english_trend
    math_average := math_average
    math_trend := math_trend
    all_average := (polish_average + english_average + math_average) / 3
    all_trend := (polish_trend + english_trend + math_trend) / 3 }

/-- Read a numeric field of a report row by name (Python `item[field]`; the
eight float-valued keys of `convert_to_dict`'s dictionary; `none` stands for
`KeyError`). -/
def fieldVal (r : ReportRow) (field : String) : Option ℚ :=
  if field = "polish_average" then some r.polish_average
  else if field = "polish_trend" then some r.polish_trend
  else if field = "english_average" then some r.english_average
  else if field = "english_trend" then some r.english_trend
  else if field = "math_average" then some r.math_average
  else if field = "math_trend" then some r.math_trend
  else if field = "all_average" then some r.all_average
  else if field = "all_trend" then some r.all_trend
  else none

/-- Insert one element into an already descending-sorted list, after every
earlier element whose key is at least as large: together with
`stableSortDesc` this realises a stable descending sort. -/
def insertDesc {α : Type} (key : α → ℚ) (a : α) : List α → List α
  | [] => [a]
  | b :: t => if key b ≤ key a then a :: b :: t else b :: insertDesc key a t

/-- Source `school_rows.sort(key=lambda item: item[subject_order], reverse=True)`:
Python's list sort is a stable sort, and a stable descending sort by a key is
extensionally unique, so it is realised here as a stable insertion sort. -/
def stableSortDesc {α : Type} (key : α → ℚ) : List α → List α
  | [] => []
  | a :: t => insertDesc key a (stableSortDesc key t)

/-- Source `get_sorted_school_rows`: convert every school to a row, then sort the
rows by the chosen field, descending; `none` stands for the `KeyError` raised
when the field is missing from a row. -/
def get_sorted_school_rows (schools : List School) (subject_order : String)
    (trend_year : Int) : Option (List ReportRow) :=
  let school_rows := schools.map (fun s => s.convert_to_dict trend_year)
  if school_rows.all (fun r => (fieldVal r subject_order).isSome) then
    some (stableSortDesc (fun r => (fieldVal r subject_order).getD 0) school_rows)
  else none

/-- The `subjects` lookup table of `get_subject_order`. -/
def subjectsTable : List (String × String) :=
  [("P", "polish"), ("E", "english"), ("M", "math"), ("A", "all")]

/-- The `orders` lookup table of `get_subject_order`. -/
def ordersTable : List (String × String) :=
  [("A", "average"), ("T", "trend")]

/-- Source `get_subject_order`: `subjects[subject_code] + "_" + orders[order_code]`;
`none` stands for the `KeyError` raised on a code outside the tables. -/
def get_subject_order (subject_code order_code : String) : Option String :=
  match dictLookup subjectsTable subject_code, dictLookup ordersTable order_code with
  | some subj, some ord => some (subj ++ "_" ++ ord)
  | _, _ => none

/-- Numeric value of a run of decimal digit characters. -/
def digitsVal (ds : List Char) : Nat :=
  ds.foldl (fun n c => 10 * n + (c.toNat - 48)) 0

/-- The pieces of a finite float literal: sign, integer digits, fractional
digits with their count, exponent sign and exponent digits. Kept in `Bool`
and `Nat` so that parsing is a pure character/arithmetic computation; the
rational value is assembled separately by `partsVal`. -/
structure FloatParts where
  neg : Bool
  intDigits : Nat
  fracDigits : Nat
  fracLen : Nat
  expNeg : Bool
  expVal : Nat
deriving DecidableEq, Repr

/-- Exponent tail of a float literal after the `e`/`E` and optional sign:
a non-empty digit run that must consume the rest of the input. -/
def parseExpDigits (neg : Bool) (cs : List Char) : Option (Bool × Nat) :=
  let p := cs.span (fun c => c.isDigit)
  if p.1.isEmpty || !p.2.isEmpty then none else some (neg, digitsVal p.1)

/-- Optional sign of the exponent. -/
def parseSignedExp : List Char → Option (Bool × Nat)
  | '+' :: r => parseExpDigits false r
  | '-' :: r => parseExpDigits true r
  | r => parseExpDigits false r

/-- Optional exponent part following the mantissa. -/
def parseExpPart : List Char → Option (Bool × Nat)
  | [] => some (false, 0)
  | 'e' :: rest => parseSignedExp rest
  | 'E' :: rest => parseSignedExp rest
  | _ => none

/-- Unsigned part of a float literal: integer digits and/or a fractional
part, then an optional exponent; at least one mantissa digit is required. -/
def parseUnsigned (neg : Bool) (cs : List Char) : Option FloatParts :=
  let p := cs.span (fun c => c.isDigit)
  match p.2 with
  | '.' :: rest2 =>
      let q := rest2.span (fun c => c.isDigit)
      if p.1.isEmpty && q.1.isEmpty then none
      else (parseExpPart q.2).map
        (fun e => ⟨neg, digitsVal p.1, digitsVal q.1, q.1.length, e.1, e.2⟩)
  | _ =>
      if p.1.isEmpty then none
      else (parseExpPart p.2).map (fun e => ⟨neg, digitsVal p.1, 0, 0, e.1, e.2⟩)

/-- Split a float literal into its parts: surrounding whitespace stripped,
optional sign, then the unsigned mantissa/exponent grammar. -/
def floatParts (s : String) : Option FloatParts :=
  let cs := ((s.data.dropWhile Char.isWhitespace).reverse.dropWhile Char.isWhitespace).reverse
  match cs with
  | '+' :: rest => parseUnsigned false rest
  | '-' :: rest => parseUnsigned true rest
  | rest => parseUnsigned false rest

/-- Exact rational value of a parsed float literal. -/
def partsVal (p : FloatParts) : ℚ :=
  let m : ℚ := (p.intDigits : ℚ) + (p.fracDigits : ℚ) / 10 ^ p.fracLen
  let sgn : ℚ := if p.neg then -1 else 1
  if p.expNeg then sgn * m / 10 ^ p.expVal else sgn * m * 10 ^ p.expVal

/-- The Python builtin `float(str)` on the finite-decimal fragment, in exact
arithmetic: surrounding whitespace stripped, optional sign, digits with
optional fractional part and optional exponent. Strings denoting non-finite
floats (`inf`, `nan`) and underscore-separated digit groups lie outside the
rational model and map to `none`, like every other non-numeric string
(`none` stands for `ValueError`). -/
def pyFloat (s : String) : Option ℚ :=
  (floatParts s).map partsVal

/-- Source `number_as_string.replace(",", ".")`: the pattern is a single character,
so the replacement maps each comma to a period. -/
def commaToDot (s : String) : String :=
  String.mk (s.data.map (fun c => if c = ',' then '.' else c))

/-- Source `convert_to_float`: `0 if not number_as_string else
float(number_as_string.replace(",", "."))`. -/
def convert_to_float (number_as_string : String) : Option ℚ :=
  if number_as_string = "" then some 0
  else pyFloat (commaToDot number_as_string)

/-- One CSV record, already split into the named fields `read_schools`
reads (`csv.DictReader` is external; its rows are supplied in memory). -/
structure CsvRow where
  city : String
  school : String
  polish_average : String
  english_average : String
  math_average : String
deriving Repr, DecidableEq

/-- One `if row[field]: school.add_result(subject, year, convert_to_float(row[field]))`
step: an empty field is skipped, a non-empty field is parsed (`none`
propagates the `ValueError`) and recorded. -/
def addSubjectResult (s : School) (subject : Subject) (year : Int) (field : String) :
    Option School :=
  if field = "" then some s
  else (convert_to_float field).map (fun v => s.add_result subject year v)

/-- The three per-subject steps of `read_schools`'s row loop, in source
order (polish, english, math); the first raised `ValueError` propagates. -/
def addRowResults (s : School) (year : Int) (row : CsvRow) : Option School :=
  match addSubjectResult s Subject.POLISH year row.polish_average with
  | none => none
  | some s1 =>
      match addSubjectResult s1 Subject.ENGLISH year row.english_average with
      | none => none
      | some s2 => addSubjectResult s2 Subject.MATH year row.math_average

/-- One iteration of `read_schools`'s row loop: filter by city, create the
school on first sight, then record the row's results; `schools_by_name` is
the insertion-ordered association list `acc`. -/
def processRow (city : String) (year : Int) (acc : List (String × School))
    (row : CsvRow) : Option (List (String × School)) :=
  if row.city = city then
    let acc' := if (dictLookup acc row.school).isSome then acc
      else dictInsert acc row.school (mkSchool row.school)
    match dictLookup acc' row.school with
    | some s => (addRowResults s year row).map (fun s' => dictInsert acc' row.school s')
    | none => none
  else some acc

/-- The row loop over one year's file: the first raised `ValueError` aborts
the whole run (`none`). -/
def processRows (city : String) (year : Int) (acc : List (String × School)) :
    List CsvRow → Option (List (String × School))
  | [] => some acc
  | r :: rs =>
      match processRow city year acc r with
      | none => none
      | some acc' => processRows city year acc' rs

/-- The year loop of `read_schools`. -/
def processYears (city : String) (acc : List (String × School)) :
    List (Int × List CsvRow) → Option (List (String × School))
  | [] => some acc
  | (y, rows) :: rest =>
      match processRows city y acc rows with
      | none => none
      | some acc' => processYears city acc' rest

/-- Source `read_schools`, with the CSV file contents supplied as in-memory rows
(one `(year, rows)` entry per file; file opening and `DictReader` parsing
are the external data source): build `schools_by_name` and return
`list(schools_by_name.values())`. -/
def read_schools (data : List (Int × List CsvRow)) (city : String) :
    Option (List School) :=
  (processYears city [] data).map (fun acc => acc.map (fun p => p.2))

/-- Concrete fixture: school with MATH results (2021, 32.0) and (2022, 64.0). -/
def schoolAB : School :=
  ((mkSchool "A").add_result Subject.MATH 2021 32).add_result Subject.MATH 2022 64

/-- Concrete fixture: school with the single MATH result (2021, 32.0). -/
def schoolOne : School :=
  (mkSchool "B").add_result Subject.MATH 2021 32

/-- Concrete fixture: a row whose polish field does not parse. -/
def badRow : CsvRow :=
  { city := "Warsaw", school := "S1", polish_average := "abc"
    english_average := "", math_average := "" }

/-- Concrete fixture: a row whose math field is empty. -/
def emptyMathRow : CsvRow :=
  { city := "Warsaw", school := "S1", polish_average := "50"
    english_average := "60,5", math_average := "" }

theorem dictUpdate_keys {α β : Type} [DecidableEq α] (l : List (α × β)) (k : α)
    (f : β → β) : (dictUpdate l k f).map (fun p => p.1) = l.map (fun p => p.1) := by
  induction l with
  | nil => rfl
  | cons p t ih =>
      simp only [dictUpdate, List.map_cons] at ih ⊢
      by_cases h : p.1 = k <;> simp [h, ih]

theorem dictLookup_cons {α β : Type} [DecidableEq α] (pk : α) (pv : β)
    (t : List (α × β)) (k : α) :
    dictLookup ((pk, pv) :: t) k = if pk = k then some pv else dictLookup t k := rfl

theorem dictInsert_cons {α β : Type} [DecidableEq α] (pk : α) (pv : β)
    (t : List (α × β)) (k : α) (v : β) :
    dictInsert ((pk, pv) :: t) k v =
      if pk = k then (k, v) :: t else (pk, pv) :: dictInsert t k v := rfl

theorem dictUpdate_cons {α β : Type} [DecidableEq α] (pk : α) (pv : β)
    (t : List (α × β)) (k : α) (f : β → β) :
    dictUpdate ((pk, pv) :: t) k f =
      (if pk = k then (pk, f pv) else (pk, pv)) :: dictUpdate t k f := rfl

theorem dictLookup_dictUpdate_ne {α β : Type} [DecidableEq α] (l : List (α × β))
    (k k' : α) (f : β → β) (h : k' ≠ k) :
    dictLookup (dictUpdate l k f) k' = dictLookup l k' := by
  induction l with
  | nil => rfl
  | cons p t ih =>
      obtain ⟨pk, pv⟩ := p
      rw [dictUpdate_cons]
      by_cases hpk : pk = k
      · subst hpk
        have hne : ¬ pk = k' := fun e => h e.symm
        rw [if_pos rfl, dictLookup_cons, dictLookup_cons, if_neg hne, if_neg hne, ih]
      · rw [if_neg hpk, dictLookup_cons, dictLookup_cons, ih]

theorem dictLookup_dictUpdate_eq {α β : Type} [DecidableEq α] (l : List (α × β))
    (k : α) (f : β → β) (v : β) (h : dictLookup l k = some v) :
    dictLookup (dictUpdate l k f) k = some (f v) := by
  induction l with
  | nil => simp [dictLookup] at h
  | cons p t ih =>
      obtain ⟨pk, pv⟩ := p
      rw [dictLookup_cons] at h
      rw [dictUpdate_cons]
      by_cases hpk : pk = k
      · rw [if_pos hpk] at h
        rw [if_pos hpk, dictLookup_cons, if_pos hpk, Option.some_inj.mp h]
      · rw [if_neg hpk] at h
        rw [if_neg hpk, dictLookup_cons, if_neg hpk, ih h]

theorem dictLookup_dictInsert_ne {α β : Type} [DecidableEq α] (l : List (α × β))
    (k k' : α) (v : β) (h : k' ≠ k) :
    dictLookup (dictInsert l k v) k' = dictLookup l k' := by
  have hkk : ¬ k = k' := fun e => h e.symm
  induction l with
  | nil => simp [dictInsert, dictLookup_cons, hkk, dictLookup]
  | cons p t ih =>
      obtain ⟨pk, pv⟩ := p
      rw [dictInsert_cons]
      by_cases hpk : pk = k
      · subst hpk
        rw [if_pos rfl, dictLookup_cons, dictLookup_cons, if_neg hkk, if_neg hkk]
      · rw [if_neg hpk, dictLookup_cons, dictLookup_cons, ih]

theorem dictLookup_dictInsert_eq {α β : Type} [DecidableEq α] (l : List (α × β))
    (k : α) (v : β) : dictLookup (dictInsert l k v) k = some v := by
  induction l with
  | nil => simp [dictInsert, dictLookup_cons, dictLookup]
  | cons p t ih =>
      obtain ⟨pk, pv⟩ := p
      rw [dictInsert_cons]
      by_cases hpk : pk = k
      · rw [if_pos hpk, dictLookup_cons, if_pos rfl]
      · rw [if_neg hpk, dictLookup_cons, if_neg hpk, ih]

theorem subjectResults_add_result_ne (s : School) (subject t : Subject) (year : Int)
    (v : ℚ) (h : t ≠ subject) :
    (s.add_result subject year v).subjectResults t = s.subjectResults t := by
  unfold School.subjectResults School.add_result
  rw [dictLookup_dictUpdate_ne _ _ _ _ h]

/-- C9: the constructor stores the three subject keys with empty inner maps,
and `add_result` preserves the outer key set, leaves every other subject's
map and every other year's score untouched, and stores exactly the given
score at the given (subject, year). -/
theorem school_invariant_spec :
    (∀ name : String, (mkSchool name).results =
      [(Subject.POLISH, []), (Subject.ENGLISH, []), (Subject.MATH, [])]) ∧
    (∀ (s : School) (subject : Subject) (year : Int) (v : ℚ),
      (s.add_result subject year v).results.map (fun p => p.1) =
        s.results.map (fun p => p.1)) ∧
    (∀ (s : School) (subject t : Subject) (year : Int) (v : ℚ), t ≠ subject →
      dictLookup (s.add_result subject year v).results t = dictLookup s.results t) ∧
    (∀ (s : School) (subject : Subject) (year : Int) (v : ℚ)
      (inner : List (Int × ℚ)), dictLookup s.results subject = some inner →
      dictLookup (s.add_result subject year v).results subject =
        some (dictInsert inner year v)) ∧
    (∀ (inner : List (Int × ℚ)) (year y : Int) (v : ℚ), y ≠ year →
      dictLookup (dictInsert inner year v) y = dictLookup inner y) ∧
    (∀ (inner : List (Int × ℚ)) (year : Int) (v : ℚ),
      dictLookup (dictInsert inner year v) year = some v) := by
  refine ⟨fun name => rfl, ?_, ?_, ?_, ?_, ?_⟩
  · intro s subject year v
    simp only [School.add_result]
    exact dictUpdate_keys s.results subject _
  · intro s subject t year v h
    simp only [School.add_result]
    exact dictLookup_dictUpdate_ne s.results subject t _ h
  · intro s subject year v inner h
    simp only [School.add_result]
    exact dictLookup_dictUpdate_eq s.results subject _ inner h
  · intro inner year y v h
    exact dictLookup_dictInsert_ne inner year y v h
  · intro inner year v
    exact dictLookup_dictInsert_eq inner year v

theorem school_invariant_spec_witness :
    dictLookup ((mkSchool "A").add_result Subject.MATH 2021 32).results Subject.POLISH =
      dictLookup (mkSchool "A").results Subject.POLISH ∧
    dictLookup ((mkSchool "A").add_result Subject.MATH 2021 32).results Subject.MATH =
      some (dictInsert [] 2021 32) ∧
    dictLookup (dictInsert ([] : List (Int × ℚ)) 2021 32) 2022 =
      dictLookup ([] : List (Int × ℚ)) 2022 :=
  ⟨school_invariant_spec.2.2.1 (mkSchool "A") Subject.MATH Subject.POLISH 2021 32
      (by decide),
    school_invariant_spec.2.2.2.1 (mkSchool "A") Subject.MATH 2021 32 [] rfl,
    school_invariant_spec.2.2.2.2.1 [] 2021 2022 32 (by decide)⟩

/-- C3: with no recorded results for the subject, `calculate_trend` returns
0.0 whatever the target year. -/
theorem calculate_trend_no_results (s : School) (subject : Subject) (year : Int)
    (h : s.has_results subject = false) : s.calculate_trend subject year = 0 := by
  unfold School.calculate_trend
  rw [h]
  simp

theorem calculate_trend_no_results_witness :
    (mkSchool "A").calculate_trend Subject.POLISH 2026 = 0 :=
  calculate_trend_no_results (mkSchool "A") Subject.POLISH 2026 (by decide)

/-- C2: `calculate_average` is the sum of the recorded scores divided by
their count, is exactly 0.0 on an empty record set, and is invariant under
reordering (permutation) of the recorded results. -/
theorem calculate_average_spec :
    (∀ (s : School) (subject : Subject), s.has_results subject = true →
      s.calculate_average subject =
        ((s.subjectResults subject).map (fun p => p.2)).sum /
          ((s.subjectResults subject).length : ℚ)) ∧
    (∀ (s : School) (subject : Subject), s.has_results subject = false →
      s.calculate_average subject = 0) ∧
    (∀ (s1 s2 : School) (subject : Subject),
      (s1.subjectResults subject).Perm (s2.subjectResults subject) →
      s1.calculate_average subject = s2.calculate_average subject) := by
  refine ⟨?_, ?_, ?_⟩
  · intro s subject h
    unfold School.calculate_average
    rw [h]
    simp
  · intro s subject h
    unfold School.calculate_average
    rw [h]
    simp
  · intro s1 s2 subject hperm
    have hlen := hperm.length_eq
    have hsum : ((s1.subjectResults subject).map (fun p => p.2)).sum =
        ((s2.subjectResults subject).map (fun p => p.2)).sum :=
      (hperm.map (fun p => p.2)).sum_eq
    unfold School.calculate_average School.has_results
    rw [hlen, hsum]

theorem calculate_average_spec_witness :
    schoolAB.calculate_average Subject.MATH =
      ((schoolAB.subjectResults Subject.MATH).map (fun p => p.2)).sum /
        ((schoolAB.subjectResults Subject.MATH).length : ℚ) :=
  calculate_average_spec.1 schoolAB Subject.MATH (by decide)

/-- C6: `get_subject_order` maps each of the eight valid (subject, order)
code pairs to the matching field name and fails (raises) on any code outside
the tables, lowercase codes included. -/
theorem get_subject_order_spec :
    get_subject_order "P" "A" = some "polish_average" ∧
    get_subject_order "P" "T" = some "polish_trend" ∧
    get_subject_order "E" "A" = some "english_average" ∧
    get_subject_order "E" "T" = some "english_trend" ∧
    get_subject_order "M" "A" = some "math_average" ∧
    get_subject_order "M" "T" = some "math_trend" ∧
    get_subject_order "A" "A" = some "all_average" ∧
    get_subject_order "A" "T" = some "all_trend" ∧
    get_subject_order "G" "A" = none ∧
    get_subject_order "p" "a" = none ∧
    (∀ subject_code order_code : String,
      subject_code ∉ (["P", "E", "M", "A"] : List String) →
      get_subject_order subject_code order_code = none) ∧
    (∀ subject_code order_code : String,
      order_code ∉ (["A", "T"] : List String) →
      get_subject_order subject_code order_code = none) := by
  refine ⟨by decide, by decide, by decide, by decide, by decide, by decide, by decide,
    by decide, by decide, by decide, ?_, ?_⟩
  · intro sc oc h
    simp only [List.mem_cons, List.not_mem_nil, not_or, or_false] at h
    obtain ⟨h1, h2, h3, h4⟩ := h
    unfold get_subject_order
    have g1 : ¬ ("P" = sc) := fun e => h1 e.symm
    have g2 : ¬ ("E" = sc) := fun e => h2 e.symm
    have g3 : ¬ ("M" = sc) := fun e => h3 e.symm
    have g4 : ¬ ("A" = sc) := fun e => h4 e.symm
    have hsub : dictLookup subjectsTable sc = none := by
      simp [subjectsTable, dictLookup, g1, g2, g3, g4]
    rw [hsub]
  · intro sc oc h
    simp only [List.mem_cons, List.not_mem_nil, not_or, or_false] at h
    obtain ⟨h1, h2⟩ := h
    unfold get_subject_order
    have g1 : ¬ ("A" = oc) := fun e => h1 e.symm
    have g2 : ¬ ("T" = oc) := fun e => h2 e.symm
    have hord : dictLookup ordersTable oc = none := by
      simp [ordersTable, dictLookup, g1, g2]
    rw [hord]
    cases dictLookup subjectsTable sc <;> rfl

theorem get_subject_order_spec_witness :
    get_subject_order "X" "A" = none ∧ get_subject_order "P" "x" = none :=
  ⟨get_subject_order_spec.2.2.2.2.2.2.2.2.2.2.1 "X" "A" (by decide),
    get_subject_order_spec.2.2.2.2.2.2.2.2.2.2.2 "P" "x" (by decide)⟩

/-- C10: `convert_to_float` returns 0.0 on the empty string (no error), and
on every non-empty string parses it with every comma replaced by a period,
so comma-decimal and period-decimal forms agree. -/
theorem convert_to_float_spec :
    convert_to_float "" = some 0 ∧
    (∀ s : String, s ≠ "" → convert_to_float s = pyFloat (commaToDot s)) ∧
    convert_to_float "123,45" = convert_to_float "123.45" ∧
    convert_to_float "123,45" = some (12345 / 100) := by
  refine ⟨rfl, ?_, rfl, ?_⟩
  · intro s h
    unfold convert_to_float
    rw [if_neg h]
  · have h : convert_to_float "123,45" = some (partsVal ⟨false, 123, 45, 2, false, 0⟩) := rfl
    rw [h]
    norm_num [partsVal]

theorem convert_to_float_spec_witness :
    convert_to_float "64,3" = pyFloat (commaToDot "64,3") :=
  convert_to_float_spec.2.1 "64,3" (by decide)

/-- C5: the combined row metrics are the unweighted means of the three
subject metrics, with a data-less subject contributing 0.0; with only MATH
data the combined metrics are one third of the MATH metrics. -/
theorem convert_to_dict_spec :
    (∀ (s : School) (trend_year : Int),
      (s.convert_to_dict trend_year).all_average =
        (s.calculate_average Subject.POLISH + s.calculate_average Subject.ENGLISH +
          s.calculate_average Subject.MATH) / 3 ∧
      (s.convert_to_dict trend_year).all_trend =
        (s.calculate_trend Subject.POLISH trend_year +
          s.calculate_trend Subject.ENGLISH trend_year +
          s.calculate_trend Subject.MATH trend_year) / 3) ∧
    (∀ (s : School) (trend_year : Int),
      s.has_results Subject.POLISH = false → s.has_results Subject.ENGLISH = false →
      (s.convert_to_dict trend_year).all_average =
        (s.convert_to_dict trend_year).math_average / 3 ∧
      (s.convert_to_dict trend_year).all_trend =
        (s.convert_to_dict trend_year).math_trend / 3) := by
  refine ⟨fun s trend_year => ⟨rfl, rfl⟩, ?_⟩
  intro s trend_year hp he
  have hpa : s.calculate_average Subject.POLISH = 0 := by
    unfold School.calculate_average
    rw [hp]
    simp
  have hea : s.calculate_average Subject.ENGLISH = 0 := by
    unfold School.calculate_average
    rw [he]
    simp
  have hpt : s.calculate_trend Subject.POLISH trend_year = 0 := by
    unfold School.calculate_trend
    rw [hp]
    simp
  have het : s.calculate_trend Subject.ENGLISH trend_year = 0 := by
    unfold School.calculate_trend
    rw [he]
    simp
  have h1 : (s.convert_to_dict trend_year).all_average =
      (s.calculate_average Subject.POLISH + s.calculate_average Subject.ENGLISH +
        s.calculate_average Subject.MATH) / 3 := rfl
  have h2 : (s.convert_to_dict trend_year).math_average =
      s.calculate_average Subject.MATH := rfl
  have h3 : (s.convert_to_dict trend_year).all_trend =
      (s.calculate_trend Subject.POLISH trend_year +
        s.calculate_trend Subject.ENGLISH trend_year +
        s.calculate_trend Subject.MATH trend_year) / 3 := rfl
  have h4 : (s.convert_to_dict trend_year).math_trend =
      s.calculate_trend Subject.MATH trend_year := rfl
  constructor
  · rw [h1, h2, hpa, hea]
    ring
  · rw [h3, h4, hpt, het]
    ring

theorem convert_to_dict_spec_witness :
    (schoolAB.convert_to_dict 2023).all_average =
      (schoolAB.convert_to_dict 2023).math_average / 3 ∧
    (schoolAB.convert_to_dict 2023).all_trend =
      (schoolAB.convert_to_dict 2023).math_trend / 3 :=
  convert_to_dict_spec.2 schoolAB 2023 (by decide) (by decide)

theorem fitSlope_single (x sc : ℚ) : fitSlope [(x, sc)] = 0 := by
  have hd : sN [(x, sc)] * sXX [(x, sc)] - sX [(x, sc)] * sX [(x, sc)] = 0 := by
    unfold sN sXX sX
    simp
  simp only [fitSlope]
  rw [if_pos hd]

theorem trendPrediction_single (x sc t : ℚ) : trendPrediction [(x, sc)] t = sc := by
  have hs := fitSlope_single x sc
  unfold trendPrediction fitIntercept
  rw [hs]
  unfold sY sX sN
  simp

/-- C4: with exactly one recorded (year, score) pair the fitted line is the
horizontal line through that score, so `calculate_trend` returns the score
clipped to [0, 100] for every target year. -/
theorem calculate_trend_single_point (s : School) (subject : Subject) (year yr : Int)
    (sc : ℚ) (h : s.subjectResults subject = [(yr, sc)]) :
    s.calculate_trend subject year = clip 0 100 sc := by
  have hres : s.has_results subject = true := by
    unfold School.has_results
    rw [h]
    rfl
  have hpts : s.subjectPoints subject = [((yr : ℚ), sc)] := by
    unfold School.subjectPoints
    rw [h]
    rfl
  unfold School.calculate_trend
  rw [hres, if_pos rfl, hpts, trendPrediction_single]

theorem calculate_trend_single_point_witness :
    schoolOne.calculate_trend Subject.MATH 2022 = clip 0 100 32 :=
  calculate_trend_single_point schoolOne Subject.MATH 2022 2021 32 rfl

theorem insertDesc_perm {α : Type} (key : α → ℚ) (a : α) (l : List α) :
    (insertDesc key a l).Perm (a :: l) := by
  induction l with
  | nil => exact List.Perm.refl _
  | cons b t ih =>
      unfold insertDesc
      by_cases h : key b ≤ key a
      · rw [if_pos h]
      · rw [if_neg h]
        exact (ih.cons b).trans (List.Perm.swap a b t)

theorem stableSortDesc_perm {α : Type} (key : α → ℚ) (l : List α) :
    (stableSortDesc key l).Perm l := by
  induction l with
  | nil => exact List.Perm.refl _
  | cons a t ih => exact (insertDesc_perm key a _).trans (ih.cons a)

theorem insertDesc_sorted {α : Type} (key : α → ℚ) (a : α) (l : List α)
    (h : l.Pairwise (fun x y => key y ≤ key x)) :
    (insertDesc key a l).Pairwise (fun x y => key y ≤ key x) := by
  induction l with
  | nil => simp [insertDesc]
  | cons b t ih =>
      rw [List.pairwise_cons] at h
      obtain ⟨h1, h2⟩ := h
      unfold insertDesc
      by_cases hba : key b ≤ key a
      · rw [if_pos hba]
        refine List.Pairwise.cons ?_ (List.Pairwise.cons h1 h2)
        intro y hy
        rcases List.mem_cons.mp hy with hy | hy
        · rw [hy]
          exact hba
        · exact (h1 y hy).trans hba
      · rw [if_neg hba]
        refine List.Pairwise.cons ?_ (ih h2)
        intro y hy
        have hy' := (insertDesc_perm key a t).mem_iff.mp hy
        rcases List.mem_cons.mp hy' with hy' | hy'
        · rw [hy']
          exact le_of_lt (lt_of_not_le hba)
        · exact h1 y hy'

theorem stableSortDesc_sorted {α : Type} (key : α → ℚ) (l : List α) :
    (stableSortDesc key l).Pairwise (fun x y => key y ≤ key x) := by
  induction l with
  | nil => simp [stableSortDesc]
  | cons a t ih => exact insertDesc_sorted key a _ ih

theorem insertDesc_filter {α : Type} (key : α → ℚ) (v : ℚ) (a : α) (l : List α) :
    (insertDesc key a l).filter (fun x => decide (key x = v)) =
      if key a = v then a :: l.filter (fun x => decide (key x = v))
      else l.filter (fun x => decide (key x = v)) := by
  induction l with
  | nil =>
      by_cases ha : key a = v
      · simp [insertDesc, List.filter, ha]
      · simp [insertDesc, List.filter, ha]
  | cons b t ih =>
      unfold insertDesc
      by_cases hba : key b ≤ key a
      · rw [if_pos hba]
        by_cases ha : key a = v
        · simp [List.filter_cons, ha]
        · simp [List.filter_cons, ha]
      · rw [if_neg hba]
        by_cases ha : key a = v
        · have hb : ¬ (key b = v) := by
            intro hb
            exact (lt_of_not_le hba).ne (ha.trans hb.symm)
          simp [List.filter_cons, ha, hb, ih]
        · by_cases hb : key b = v
          · simp [List.filter_cons, ha, hb, ih]
          · simp [List.filter_cons, ha, hb, ih]

theorem stableSortDesc_filter {α : Type} (key : α → ℚ) (v : ℚ) (l : List α) :
    (stableSortDesc key l).filter (fun x => decide (key x = v)) =
      l.filter (fun x => decide (key x = v)) := by
  induction l with
  | nil => rfl
  | cons a t ih =>
      unfold stableSortDesc
      rw [insertDesc_filter]
      by_cases ha : key a = v
      · simp [List.filter_cons, ha, ih]
      · simp [List.filter_cons, ha, ih]

/-- C7: the sorting step of `get_sorted_school_rows` returns a permutation of
the rows, ordered descending by the selected field, ties keeping their
original relative order (stable sort); an empty input yields an empty
output, and on rows built by `convert_to_dict` the sort is exactly what
`get_sorted_school_rows` returns. -/
theorem rank_spec :
    (∀ (key : ReportRow → ℚ) (rows : List ReportRow),
      (stableSortDesc key rows).Perm rows ∧
      (stableSortDesc key rows).Pairwise (fun r1 r2 => key r2 ≤ key r1) ∧
      (∀ v : ℚ, (stableSortDesc key rows).filter (fun r => decide (key r = v)) =
        rows.filter (fun r => decide (key r = v)))) ∧
    (∀ key : ReportRow → ℚ, stableSortDesc key ([] : List ReportRow) = []) ∧
    (∀ (schools : List School) (trend_year : Int),
      get_sorted_school_rows schools "math_average" trend_year =
        some (stableSortDesc (fun r => (fieldVal r "math_average").getD 0)
          (schools.map (fun s => s.convert_to_dict trend_year)))) := by
  refine ⟨?_, fun key => rfl, ?_⟩
  · intro key rows
    exact ⟨stableSortDesc_perm key rows, stableSortDesc_sorted key rows,
      fun v => stableSortDesc_filter key v rows⟩
  · intro schools trend_year
    unfold get_sorted_school_rows
    rw [if_pos]
    exact List.all_eq_true.mpr (fun r hr => rfl)

theorem addSubjectResult_skip (s : School) (subject : Subject) (year : Int) :
    addSubjectResult s subject year "" = some s := rfl

theorem addSubjectResult_frame (s s' : School) (subject t : Subject) (year : Int)
    (field : String) (hne : t ≠ subject)
    (h : addSubjectResult s subject year field = some s') :
    s'.subjectResults t = s.subjectResults t := by
  unfold addSubjectResult at h
  by_cases hf : field = ""
  · rw [if_pos hf] at h
    rw [← Option.some_inj.mp h]
  · rw [if_neg hf] at h
    cases hcv : convert_to_float field with
    | none =>
        rw [hcv] at h
        exact absurd h (by simp)
    | some v =>
        rw [hcv] at h
        have h' : s.add_result subject year v = s' := by simpa using h
        rw [← h']
        exact subjectResults_add_result_ne s subject t year v hne

theorem addRowResults_polish_err (s : School) (year : Int) (row : CsvRow)
    (h1 : row.polish_average ≠ "") (h2 : convert_to_float row.polish_average = none) :
    addRowResults s year row = none := by
  unfold addRowResults addSubjectResult
  rw [if_neg h1, h2]
  rfl

theorem processRows_err (city : String) (year : Int) (row : CsvRow)
    (rows2 : List CsvRow) (hc : row.city = city) (h1 : row.polish_average ≠ "")
    (h2 : convert_to_float row.polish_average = none) (rows1 : List CsvRow) :
    ∀ acc, processRows city year acc (rows1 ++ row :: rows2) = none := by
  induction rows1 with
  | nil =>
      intro acc
      have hpr : processRow city year acc row = none := by
        simp only [processRow]
        rw [if_pos hc]
        cases hdl : dictLookup
            (if (dictLookup acc row.school).isSome then acc
              else dictInsert acc row.school (mkSchool row.school)) row.school with
        | none => rfl
        | some s =>
            show Option.map _ (addRowResults s year row) = none
            rw [addRowResults_polish_err s year row h1 h2]
            rfl
      rw [List.nil_append]
      unfold processRows
      rw [hpr]
  | cons r rs ih =>
      intro acc
      rw [List.cons_append]
      unfold processRows
      cases hpr : processRow city year acc r with
      | none => rfl
      | some acc' => exact ih acc'

/-- C8: during ingestion an empty subject field is skipped (nothing is
recorded for that subject), while a non-empty unparseable field raises a
`ValueError` that propagates out of the row loop and aborts the whole
`read_schools` run. -/
theorem ingestion_error_spec :
    (∀ (s : School) (year : Int) (row : CsvRow) (s' : School),
      row.math_average = "" → addRowResults s year row = some s' →
      s'.subjectResults Subject.MATH = s.subjectResults Subject.MATH) ∧
    (∀ (s : School) (year : Int) (row : CsvRow),
      row.polish_average ≠ "" → convert_to_float row.polish_average = none →
      addRowResults s year row = none) ∧
    (∀ (city : String) (year : Int) (rows1 rows2 : List CsvRow) (row : CsvRow)
      (rest : List (Int × List CsvRow)),
      row.city = city → row.polish_average ≠ "" →
      convert_to_float row.polish_average = none →
      read_schools ((year, rows1 ++ row :: rows2) :: rest) city = none) := by
  refine ⟨?_, addRowResults_polish_err, ?_⟩
  · intro s year row s' hm h
    unfold addRowResults at h
    split at h
    · exact absurd h (by simp)
    · rename_i s1 h1
      split at h
      · exact absurd h (by simp)
      · rename_i s2 h2
        rw [hm, addSubjectResult_skip] at h
        rw [← Option.some_inj.mp h]
        rw [addSubjectResult_frame s1 s2 Subject.ENGLISH Subject.MATH year _
          (by decide) h2]
        exact addSubjectResult_frame s s1 Subject.POLISH Subject.MATH year _
          (by decide) h1
  · intro city year rows1 rows2 row rest hc h1 h2
    unfold read_schools processYears
    rw [processRows_err city year row rows2 hc h1 h2 rows1 []]
    rfl

theorem ingestion_error_spec_witness :
    addRowResults (mkSchool "S1") 2021 badRow = none ∧
    read_schools [(2021, [badRow])] "Warsaw" = none :=
  ⟨ingestion_error_spec.2.1 (mkSchool "S1") 2021 badRow (by decide) (by decide),
    ingestion_error_spec.2.2 "Warsaw" 2021 [] [] badRow [] rfl (by decide) (by decide)⟩

theorem sse_expand (pts : List (ℚ × ℚ)) (a b : ℚ) :
    sse pts a b = sYY pts - 2 * a * sXY pts - 2 * b * sY pts + a ^ 2 * sXX pts
      + 2 * a * b * sX pts + b ^ 2 * sN pts := by
  induction pts with
  | nil => simp [sse, sYY, sXY, sY, sXX, sX, sN]
  | cons p t ih =>
      simp only [sse, sYY, sXY, sY, sXX, sX, sN, List.map_cons, List.sum_cons,
        List.length_cons, Nat.cast_add, Nat.cast_one] at ih ⊢
      rw [ih]
      ring

theorem centered_sq_sum (pts : List (ℚ × ℚ)) (k c : ℚ) :
    (pts.map (fun p => (k * p.1 - c) ^ 2)).sum =
      k ^ 2 * sXX pts - 2 * k * c * sX pts + c ^ 2 * sN pts := by
  induction pts with
  | nil => simp [sXX, sX, sN]
  | cons p t ih =>
      simp only [sXX, sX, sN, List.map_cons, List.sum_cons, List.length_cons,
        Nat.cast_add, Nat.cast_one] at ih ⊢
      rw [ih]
      ring

theorem shifted_nonneg (pts : List (ℚ × ℚ)) (c : ℚ) :
    0 ≤ sXX pts - 2 * c * sX pts + c ^ 2 * sN pts := by
  have h := centered_sq_sum pts 1 c
  have h2 : 0 ≤ (pts.map (fun p => (1 * p.1 - c) ^ 2)).sum := by
    apply List.sum_nonneg
    intro x hx
    obtain ⟨p, hp, rfl⟩ := List.mem_map.mp hx
    positivity
  rw [h] at h2
  nlinarith [h2]

theorem dVar_nonneg (pts : List (ℚ × ℚ)) :
    0 ≤ sN pts * sXX pts - sX pts * sX pts := by
  induction pts with
  | nil => simp [sN, sXX, sX]
  | cons p t ih =>
      have hs := shifted_nonneg t p.1
      simp only [sN, sXX, sX, List.map_cons, List.sum_cons, List.length_cons,
        Nat.cast_add, Nat.cast_one] at ih hs ⊢
      nlinarith [ih, hs]

theorem sum_sq_eq_zero {l : List ℚ} (h : (l.map (fun x => x ^ 2)).sum = 0) :
    ∀ x ∈ l, x = 0 := by
  induction l with
  | nil =>
      intro x hx
      simp at hx
  | cons a t ih =>
      simp only [List.map_cons, List.sum_cons] at h
      have ht : 0 ≤ (t.map (fun x => x ^ 2)).sum := by
        apply List.sum_nonneg
        intro y hy
        obtain ⟨z, hz, rfl⟩ := List.mem_map.mp hy
        positivity
      have ha : a ^ 2 = 0 := by nlinarith [sq_nonneg a]
      intro x hx
      rcases List.mem_cons.mp hx with rfl | hx
      · exact (pow_eq_zero_iff (two_ne_zero)).mp ha
      · exact ih (by nlinarith [sq_nonneg a]) x hx

theorem d_zero_x_mean (pts : List (ℚ × ℚ))
    (hd : sN pts * sXX pts - sX pts * sX pts = 0) :
    ∀ p ∈ pts, sN pts * p.1 = sX pts := by
  have hc := centered_sq_sum pts (sN pts) (sX pts)
  have hz : (pts.map (fun p => (sN pts * p.1 - sX pts) ^ 2)).sum = 0 := by
    rw [hc]
    linear_combination sN pts * hd
  have hz' : ((pts.map (fun p => sN pts * p.1 - sX pts)).map (fun x => x ^ 2)).sum = 0 := by
    rw [List.map_map]
    exact hz
  have hall := sum_sq_eq_zero hz'
  intro p hp
  have hm : sN pts * p.1 - sX pts ∈ pts.map (fun p => sN pts * p.1 - sX pts) :=
    List.mem_map_of_mem _ hp
  have := hall _ hm
  linarith

theorem scaled_sXY (pts : List (ℚ × ℚ)) (k c : ℚ) (h : ∀ p ∈ pts, k * p.1 = c) :
    k * sXY pts = c * sY pts := by
  induction pts with
  | nil => simp [sXY, sY]
  | cons p t ih =>
      simp only [sXY, sY, List.map_cons, List.sum_cons] at ih ⊢
      have hp := h p (List.mem_cons_self p t)
      have ht := ih (fun q hq => h q (List.mem_cons_of_mem p hq))
      linear_combination p.2 * hp + ht

theorem d_zero_m_zero (pts : List (ℚ × ℚ))
    (hd : sN pts * sXX pts - sX pts * sX pts = 0) :
    sN pts * sXY pts - sX pts * sY pts = 0 := by
  have h := scaled_sXY pts (sN pts) (sX pts) (d_zero_x_mean pts hd)
  linarith

theorem sse_ge_degenerate (pts : List (ℚ × ℚ)) (hn : 0 < sN pts)
    (hd : sN pts * sXX pts - sX pts * sX pts = 0) (a b : ℚ) :
    sse pts 0 (sY pts / sN pts) ≤ sse pts a b := by
  have hm := d_zero_m_zero pts hd
  have hn' : sN pts ≠ 0 := ne_of_gt hn
  have key : sN pts * (sse pts a b - sse pts 0 (sY pts / sN pts)) =
      (sN pts * b + a * sX pts - sY pts) ^ 2
        + a ^ 2 * (sN pts * sXX pts - sX pts * sX pts)
        - 2 * a * (sN pts * sXY pts - sX pts * sY pts) := by
    rw [sse_expand, sse_expand]
    field_simp
    ring
  have hDa : a ^ 2 * (sN pts * sXX pts - sX pts * sX pts) = 0 := by
    rw [hd]
    ring
  have hMa : 2 * a * (sN pts * sXY pts - sX pts * sY pts) = 0 := by
    rw [hm]
    ring
  nlinarith [key, hDa, hMa, sq_nonneg (sN pts * b + a * sX pts - sY pts), hn]

theorem sse_ge_nondegenerate (pts : List (ℚ × ℚ)) (hn : 0 < sN pts)
    (hdpos : 0 < sN pts * sXX pts - sX pts * sX pts) (a b : ℚ) :
    sse pts
      ((sN pts * sXY pts - sX pts * sY pts) / (sN pts * sXX pts - sX pts * sX pts))
      ((sY pts -
          (sN pts * sXY pts - sX pts * sY pts) / (sN pts * sXX pts - sX pts * sX pts)
            * sX pts) / sN pts)
      ≤ sse pts a b := by
  have hn' : sN pts ≠ 0 := ne_of_gt hn
  have hd' : sN pts * sXX pts - sX pts * sX pts ≠ 0 := ne_of_gt hdpos
  have key : sN pts * (sN pts * sXX pts - sX pts * sX pts) *
      (sse pts a b -
        sse pts
          ((sN pts * sXY pts - sX pts * sY pts) / (sN pts * sXX pts - sX pts * sX pts))
          ((sY pts -
              (sN pts * sXY pts - sX pts * sY pts) / (sN pts * sXX pts - sX pts * sX pts)
                * sX pts) / sN pts)) =
      (sN pts * sXX pts - sX pts * sX pts) * (sN pts * b + a * sX pts - sY pts) ^ 2
        + (a * (sN pts * sXX pts - sX pts * sX pts)
            - (sN pts * sXY pts - sX pts * sY pts)) ^ 2 := by
    rw [sse_expand, sse_expand]
    field_simp
    ring
  nlinarith [key, sq_nonneg (sN pts * b + a * sX pts - sY pts),
    sq_nonneg (a * (sN pts * sXX pts - sX pts * sX pts)
      - (sN pts * sXY pts - sX pts * sY pts)),
    mul_nonneg (le_of_lt hdpos) (sq_nonneg (sN pts * b + a * sX pts - sY pts)),
    mul_pos hn hdpos]

theorem fit_minimizes (pts : List (ℚ × ℚ)) (hne : pts ≠ []) (a b : ℚ) :
    sse pts (fitSlope pts) (fitIntercept pts) ≤ sse pts a b := by
  have hn : 0 < sN pts := by
    unfold sN
    have h := List.length_pos.mpr hne
    exact_mod_cast h
  by_cases hd : sN pts * sXX pts - sX pts * sX pts = 0
  · have h0 : fitSlope pts = 0 := by
      simp only [fitSlope]
      rw [if_pos hd]
    have h1 : fitIntercept pts = sY pts / sN pts := by
      simp only [fitIntercept]
      rw [h0]
      ring_nf
    rw [h0, h1]
    exact sse_ge_degenerate pts hn hd a b
  · have hdpos : 0 < sN pts * sXX pts - sX pts * sX pts :=
      lt_of_le_of_ne (dVar_nonneg pts) (Ne.symm hd)
    have h0 : fitSlope pts =
        (sN pts * sXY pts - sX pts * sY pts) / (sN pts * sXX pts - sX pts * sX pts) := by
      simp only [fitSlope]
      rw [if_neg hd]
    have h1 : fitIntercept pts =
        (sY pts -
          (sN pts * sXY pts - sX pts * sY pts) / (sN pts * sXX pts - sX pts * sX pts)
            * sX pts) / sN pts := by
      simp only [fitIntercept]
      rw [h0]
    rw [h0, h1]
    exact sse_ge_nondegenerate pts hn hdpos a b

/-- C1: for a subject with recorded data, `calculate_trend` is the value at
the target year of a line minimising the sum of squared residuals over the
recorded (year, score) pairs — the ordinary-least-squares fit — clipped to
[0, 100]; on the points (2021, 32.0), (2022, 64.0) it returns 96.0 at 2023. -/
theorem calculate_trend_ols_spec :
    (∀ (s : School) (subject : Subject) (year : Int),
      s.has_results subject = true →
      ∃ a b : ℚ,
        (∀ a' b' : ℚ,
          sse (s.subjectPoints subject) a b ≤ sse (s.subjectPoints subject) a' b') ∧
        s.calculate_trend subject year = clip 0 100 (a * (year : ℚ) + b)) ∧
    schoolAB.calculate_trend Subject.MATH 2023 = 96 := by
  constructor
  · intro s subject year h
    have hne : s.subjectPoints subject ≠ [] := by
      have hlen : 0 < (s.subjectResults subject).length := of_decide_eq_true h
      have : 0 < (s.subjectPoints subject).length := by
        unfold School.subjectPoints
        rw [List.length_map]
        exact hlen
      exact List.ne_nil_of_length_pos this
    refine ⟨fitSlope (s.subjectPoints subject), fitIntercept (s.subjectPoints subject),
      fun a' b' => fit_minimizes (s.subjectPoints subject) hne a' b', ?_⟩
    unfold School.calculate_trend
    rw [h, if_pos rfl]
    rfl
  · simp [schoolAB, School.calculate_trend, School.subjectPoints, School.subjectResults,
      School.add_result, mkSchool, dictUpdate, dictInsert, dictLookup, School.has_results,
      trendPrediction, fitSlope, fitIntercept, sN, sX, sY, sXX, sXY, clip]
    norm_num

theorem calculate_trend_ols_spec_witness :
    ∃ a b : ℚ,
      (∀ a' b' : ℚ,
        sse (schoolAB.subjectPoints Subject.MATH) a b ≤
          sse (schoolAB.subjectPoints Subject.MATH) a' b') ∧
      schoolAB.calculate_trend Subject.MATH 2023 = clip 0 100 (a * ((2023 : Int) : ℚ) + b) :=
  calculate_trend_ols_spec.1 schoolAB Subject.MATH 2023 (by decide)
